import Mathlib

/-!
Shallow embedding of the retrieval–aggregation–synthesis pipeline of
`src/main.py` (Gita-Reader).  Numeric values that are Python floats are
modelled as rationals (`ℚ`); Python dicts keyed by strings are modelled as
association lists; Python sets built by repeated `add` are modelled as
append-if-absent lists (`insertNew` / `dedupList`), which preserves first
insertion order and whose length is the distinct-element count.
External services (the embedding model, the FAISS index, the Groq HTTP
endpoint, `json.loads`) are opaque inputs: their outcomes are parameters of
the embedded functions.
-/

namespace GitaReader

/-- Append-if-absent: the effect of Python `set.add` on a set modelled as a
duplicate-free list in insertion order. -/
def insertNew {α : Type} [DecidableEq α] (l : List α) (x : α) : List α :=
  if x ∈ l then l else l ++ [x]

/-- The set of elements of `l`, as a duplicate-free list in first-occurrence
order; models Python `list(set(...))` up to ordering and `len(set(...))`
exactly. -/
def dedupList {α : Type} [DecidableEq α] (l : List α) : List α :=
  l.foldl insertNew []

theorem mem_foldl_insertNew {α : Type} [DecidableEq α] (l : List α) :
    ∀ (acc : List α) (x : α), x ∈ l.foldl insertNew acc ↔ x ∈ acc ∨ x ∈ l := by
  induction l with
  | nil => simp
  | cons a t ih =>
    intro acc x
    simp only [List.foldl_cons, ih, insertNew]
    by_cases hx : a ∈ acc
    · simp only [if_pos hx, List.mem_cons]
      constructor
      · rintro (h | h)
        · exact Or.inl h
        · exact Or.inr (Or.inr h)
      · rintro (h | h | h)
        · exact Or.inl h
        · exact Or.inl (h ▸ hx)
        · exact Or.inr h
    · simp only [if_neg hx, List.mem_append, List.mem_singleton, List.mem_cons]
      tauto

theorem mem_dedupList {α : Type} [DecidableEq α] (l : List α) (x : α) :
    x ∈ dedupList l ↔ x ∈ l := by
  simp [dedupList, mem_foldl_insertNew]

theorem foldl_insertNew_ne_nil {α : Type} [DecidableEq α] (l : List α) :
    ∀ (acc : List α), acc ≠ [] → l.foldl insertNew acc ≠ [] := by
  induction l with
  | nil => intro acc h; simpa using h
  | cons a t ih =>
    intro acc h
    refine ih _ ?_
    unfold insertNew
    by_cases hx : a ∈ acc
    · simpa [hx] using h
    · simp [hx]

theorem dedupList_ne_nil {α : Type} [DecidableEq α] (x : α) (l : List α) :
    dedupList (x :: l) ≠ [] := by
  unfold dedupList
  simp only [List.foldl_cons]
  apply foldl_insertNew_ne_nil
  simp [insertNew]

/-- Python `sum(l)/len(l)` for a list of rationals (`np.mean`); the source
guards the empty case with `if data['scores'] else 0`. -/
def listMean (l : List ℚ) : ℚ :=
  if l = [] then 0 else l.sum / l.length

/-! ## Knowledge-graph data model (`load_knowledge_graph_data`)

`VerseNode` payload fields (shloka, translations, …) play no role in the
aggregation algorithm; a verse is represented by its id string, and
`kg.verses` is the list of verse ids present in the store. -/

structure ConceptNode where
  term : String
  mentioned_in : List String
  deriving DecidableEq

structure CommentaryNode where
  school : String
  verse_id : String
  deriving DecidableEq

structure KG where
  verses : List String
  concepts : List (String × ConceptNode)
  commentaries : List (String × CommentaryNode)

/-- Python `dict.get` over an association list. -/
def alookup {β : Type} (m : List (String × β)) (k : String) : Option β :=
  match m with
  | [] => none
  | (k', v) :: rest => if k' = k then some v else alookup rest k

/-! ## Candidate Aggregator (`perform_search`, src/main.py lines 348–419) -/

/-- Per-verse accumulator: one entry of the `candidate_verses` defaultdict. -/
structure VData where
  scores : List ℚ
  provenance_paths : List String
  concepts : List String
  support_count : ℕ
  deriving DecidableEq

def VData.empty : VData := ⟨[], [], [], 0⟩

/-- One contribution of one raw hit to one verse: the appended similarity,
the appended provenance string, and the concept term added to the concept
set (for concept hits). -/
structure Touch where
  contrib : ℚ
  prov : String
  term : Option String
  deriving DecidableEq

/-- The mutation every contributing branch of the aggregation loop performs
on the touched verse's accumulator: append the weighted score, append the
provenance path, add the concept term (if any) to the set, bump the support
count. -/
def applyTouch (d : VData) (t : Touch) : VData :=
  { scores := d.scores ++ [t.contrib]
    provenance_paths := d.provenance_paths ++ [t.prov]
    concepts := match t.term with
      | some x => insertNew d.concepts x
      | none => d.concepts
    support_count := d.support_count + 1 }

def provVerse (nkey : String) : String :=
  "Query ‚Üí Verse(" ++ nkey ++ ")"

def provCommentary (school verse_id : String) : String :=
  "Query ‚Üí Commentary(" ++ school ++ ") ‚Üí Verse(" ++ verse_id ++ ")"

def provConcept (term verse_id : String) : String :=
  "Query ‚Üí Concept(" ++ term ++ ") ‚Üí Verse(" ++ verse_id ++ ")"

/-- `candidate_verses[k] ... mutate`: defaultdict access-and-update, keyed
association list preserving insertion order. -/
def updAcc (m : List (String × VData)) (k : String) (f : VData → VData) :
    List (String × VData) :=
  match m with
  | [] => [(k, f VData.empty)]
  | (k', v) :: rest =>
    if k' = k then (k', f v) :: rest else (k', v) :: updAcc rest k f

/-- The body of the `for score, idx in zip(scores[0], indices[0])` loop.
`itn` is `id_to_node` composed with the split on the first `:` — it maps a
FAISS row index to the node-type / node-key pair. -/
def processHit (kg : KG) (itn : Int → String × String)
    (acc : List (String × VData)) (p : ℚ × Int) : List (String × VData) :=
  if p.2 = -1 then acc
  else
    let nt := itn p.2
    if nt.1 = "verse" then
      updAcc acc nt.2 (fun d => applyTouch d ⟨p.1, provVerse nt.2, none⟩)
    else if nt.1 = "commentary" then
      match alookup kg.commentaries nt.2 with
      | some c =>
        updAcc acc c.verse_id
          (fun d => applyTouch d ⟨p.1 * (9/10), provCommentary c.school c.verse_id, none⟩)
      | none => acc
    else if nt.1 = "concept" then
      match alookup kg.concepts nt.2 with
      | some con =>
        con.mentioned_in.foldl
          (fun a v =>
            updAcc a v (fun d => applyTouch d ⟨p.1 * (8/10), provConcept nt.2 v, some nt.2⟩))
          acc
      | none => acc
    else acc

/-- The whole aggregation loop: fold the hit list over an empty defaultdict. -/
def buildCandidates (kg : KG) (itn : Int → String × String)
    (hits : List (ℚ × Int)) : List (String × VData) :=
  hits.foldl (processHit kg itn) []

/-- `final_score = avg + 0.1*len(concepts) + min(0.05*support, 0.2)`. -/
def finalScore (d : VData) : ℚ :=
  listMean d.scores + (d.concepts.length : ℚ) * (1/10)
    + min ((d.support_count : ℚ) * (1/20)) (1/5)

/-- The produced search result; the `verse` payload is represented by its
id, and the related-commentaries payload (a pure copy of store content) is
omitted. -/
structure SearchResult where
  verse_id : String
  score : ℚ
  provenance_path : List String
  related_concepts : List String
  support_count : ℕ
  deriving DecidableEq

/-- The `for verse_id, data in candidate_verses.items()` result loop:
verses absent from the store are dropped, provenance is de-duplicated. -/
def mkResults (kg : KG) (cands : List (String × VData)) : List SearchResult :=
  cands.filterMap (fun p =>
    if p.1 ∈ kg.verses then
      some ⟨p.1, finalScore p.2, dedupList p.2.provenance_paths,
            p.2.concepts, p.2.support_count⟩
    else none)

/-- `perform_search` minus the external encode/index steps: consumes the raw
(score, index) hit list the FAISS search returned. Sorting is by score
descending, stable (Python `list.sort` with `reverse=True`). -/
def perform_search (kg : KG) (itn : Int → String × String)
    (hits : List (ℚ × Int)) (top_k : ℕ) : List SearchResult :=
  (List.insertionSort (fun a b => b.score ≤ a.score)
    (mkResults kg (buildCandidates kg itn hits))).take top_k

/-! ### Pointwise specification of the aggregation

`hitTouches kg itn vid p` lists the contributions hit `p` makes to verse
`vid`, read off branch by branch from the loop body: a verse hit
contributes its similarity (weight 1), a commentary hit `0.9 ×`, a concept
hit `0.8 ×` once per occurrence of `vid` in the concept's membership
list. -/
def hitTouches (kg : KG) (itn : Int → String × String) (vid : String)
    (p : ℚ × Int) : List Touch :=
  if p.2 = -1 then []
  else
    let nt := itn p.2
    if nt.1 = "verse" then
      if nt.2 = vid then [⟨p.1, provVerse nt.2, none⟩] else []
    else if nt.1 = "commentary" then
      match alookup kg.commentaries nt.2 with
      | some c =>
        if c.verse_id = vid then
          [⟨p.1 * (9/10), provCommentary c.school c.verse_id, none⟩]
        else []
      | none => []
    else if nt.1 = "concept" then
      match alookup kg.concepts nt.2 with
      | some con =>
        (con.mentioned_in.filter (fun v => v = vid)).map
          (fun v => ⟨p.1 * (8/10), provConcept nt.2 v, some nt.2⟩)
      | none => []
    else []

/-- All contributions of a hit list to verse `vid`, in loop order. -/
def touches (kg : KG) (itn : Int → String × String) (vid : String)
    (hits : List (ℚ × Int)) : List Touch :=
  hits.flatMap (hitTouches kg itn vid)

/-! ### The fold agrees with the pointwise specification -/

theorem alookup_updAcc (m : List (String × VData)) (k k' : String)
    (f : VData → VData) :
    alookup (updAcc m k f) k' =
      if k = k' then some (f ((alookup m k').getD VData.empty))
      else alookup m k' := by
  induction m with
  | nil =>
    by_cases h : k = k' <;> simp [updAcc, alookup, h]
  | cons a rest ih =>
    obtain ⟨ka, va⟩ := a
    by_cases hka : ka = k
    · subst hka
      by_cases h : ka = k' <;> simp [updAcc, alookup, h]
    · by_cases h : ka = k'
      · subst h
        have : ¬ k = ka := fun hh => hka hh.symm
        simp [updAcc, alookup, hka, this]
      · simp [updAcc, alookup, hka, h, ih]

theorem foldl_applyTouch (ts : List Touch) :
    ∀ (d : VData),
      List.foldl applyTouch d ts =
        ⟨d.scores ++ ts.map Touch.contrib,
         d.provenance_paths ++ ts.map Touch.prov,
         List.foldl insertNew d.concepts (ts.filterMap Touch.term),
         d.support_count + ts.length⟩ := by
  induction ts with
  | nil => intro d; simp
  | cons t rest ih =>
    intro d
    simp only [List.foldl_cons, ih, applyTouch, List.map_cons, List.length_cons]
    cases ht : t.term <;>
      simp [ht, List.filterMap_cons, List.append_assoc, Nat.add_comm,
        Nat.add_assoc, Nat.add_left_comm]

theorem alookup_foldl_updAcc (T : String → Touch) (vid : String)
    (l : List String) :
    ∀ (acc : List (String × VData)),
      alookup
        (l.foldl (fun a v => updAcc a v (fun d => applyTouch d (T v))) acc) vid =
      (if vid ∈ l then
        some (List.foldl applyTouch ((alookup acc vid).getD VData.empty)
          ((l.filter (fun v => v = vid)).map T))
      else alookup acc vid) := by
  induction l with
  | nil => intro acc; simp
  | cons v rest ih =>
    intro acc
    by_cases hv : v = vid
    · subst hv
      have hupd : alookup (updAcc acc v (fun d => applyTouch d (T v))) v
          = some (applyTouch ((alookup acc v).getD VData.empty) (T v)) := by
        rw [alookup_updAcc]; simp
      have hfil : (v :: rest).filter (fun x => x = v)
          = v :: rest.filter (fun x => x = v) := by
        simp [List.filter_cons]
      by_cases hmem : v ∈ rest
      · simp only [List.foldl_cons, ih, hmem, if_true, hupd, Option.getD_some,
          List.mem_cons, true_or, hfil, List.map_cons, List.foldl_cons]
      · have hfr : rest.filter (fun x => x = v) = [] := by
          rw [List.filter_eq_nil_iff]
          intro a ha
          simp only [decide_eq_true_eq]
          intro haeq
          exact hmem (haeq ▸ ha)
        simp only [List.foldl_cons, ih, hmem, if_false, hupd, List.mem_cons,
          true_or, if_true, hfil, hfr, List.map_cons, List.map_nil,
          List.foldl_cons, List.foldl_nil, Option.getD_some]
    · have hupd : alookup (updAcc acc v (fun d => applyTouch d (T v))) vid
          = alookup acc vid := by
        rw [alookup_updAcc]; simp [hv]
      have hfil : (v :: rest).filter (fun x => x = vid)
          = rest.filter (fun x => x = vid) := by
        simp [List.filter_cons, hv]
      have hmc : (vid ∈ v :: rest) = (vid ∈ rest) := by
        simp only [List.mem_cons, eq_iff_iff]
        constructor
        · rintro (h | h)
          · exact absurd h.symm hv
          · exact h
        · exact Or.inr
      simp only [List.foldl_cons, ih, hupd, hfil, hmc]

theorem alookup_processHit (kg : KG) (itn : Int → String × String)
    (acc : List (String × VData)) (p : ℚ × Int) (vid : String) :
    alookup (processHit kg itn acc p) vid =
      (if hitTouches kg itn vid p = [] then alookup acc vid
       else
        some (List.foldl applyTouch ((alookup acc vid).getD VData.empty)
          (hitTouches kg itn vid p))) := by
  unfold processHit hitTouches
  by_cases hskip : p.2 = -1
  · simp [hskip]
  · simp only [if_neg hskip]
    set nt := itn p.2 with hnt
    by_cases h1 : nt.1 = "verse"
    · simp only [if_pos h1]
      rw [alookup_updAcc]
      by_cases h2 : nt.2 = vid
      · simp [h2]
      · have : ¬ nt.2 = vid := h2
        simp [this]
    · simp only [if_neg h1]
      by_cases h2 : nt.1 = "commentary"
      · simp only [if_pos h2]
        cases hc : alookup kg.commentaries nt.2 with
        | none => simp
        | some c =>
          simp only
          rw [alookup_updAcc]
          by_cases h3 : c.verse_id = vid
          · simp [h3]
          · have : ¬ c.verse_id = vid := h3
            simp [this]
      · simp only [if_neg h2]
        by_cases h3 : nt.1 = "concept"
        · simp only [if_pos h3]
          cases hc : alookup kg.concepts nt.2 with
          | none => simp
          | some con =>
            simp only
            rw [alookup_foldl_updAcc (fun v =>
              ⟨p.1 * (8/10), provConcept nt.2 v, some nt.2⟩) vid con.mentioned_in acc]
            by_cases hmem : vid ∈ con.mentioned_in
            · have hne : (con.mentioned_in.filter (fun v => v = vid)).map
                  (fun v => (⟨p.1 * (8/10), provConcept nt.2 v, some nt.2⟩ : Touch)) ≠ [] := by
                simp only [ne_eq, List.map_eq_nil_iff, List.filter_eq_nil_iff]
                push_neg
                exact ⟨vid, hmem, by simp⟩
              simp [hmem, hne]
            · have hnil : (con.mentioned_in.filter (fun v => v = vid)).map
                  (fun v => (⟨p.1 * (8/10), provConcept nt.2 v, some nt.2⟩ : Touch)) = [] := by
                simp only [List.map_eq_nil_iff, List.filter_eq_nil_iff]
                intro a ha haeq
                exact hmem (by simpa [of_decide_eq_true haeq] using ha)
              simp [hmem, hnil]
        · simp [h3]

theorem alookup_foldl_processHit (kg : KG) (itn : Int → String × String)
    (hits : List (ℚ × Int)) :
    ∀ (acc : List (String × VData)) (vid : String),
      alookup (hits.foldl (processHit kg itn) acc) vid =
        (if touches kg itn vid hits = [] then alookup acc vid
         else
          some (List.foldl applyTouch ((alookup acc vid).getD VData.empty)
            (touches kg itn vid hits))) := by
  induction hits with
  | nil => intro acc vid; simp [touches]
  | cons p rest ih =>
    intro acc vid
    have htc : touches kg itn vid (p :: rest) =
        hitTouches kg itn vid p ++ touches kg itn vid rest := by
      simp [touches]
    simp only [List.foldl_cons, ih, alookup_processHit, htc]
    by_cases h1 : hitTouches kg itn vid p = []
    · simp [h1]
    · simp only [if_neg h1]
      by_cases h2 : touches kg itn vid rest = []
      · simp [h2, h1, List.append_ne_nil_of_left_ne_nil h1]
      · simp [h2, h1, List.append_ne_nil_of_left_ne_nil h1, Option.getD_some,
          List.foldl_append]

/-- The value of the accumulator at any verse id, at the end of the
aggregation loop: exactly the pointwise contributions. -/
theorem alookup_buildCandidates (kg : KG) (itn : Int → String × String)
    (hits : List (ℚ × Int)) (vid : String) :
    alookup (buildCandidates kg itn hits) vid =
      (if touches kg itn vid hits = [] then none
       else
        some ⟨(touches kg itn vid hits).map Touch.contrib,
              (touches kg itn vid hits).map Touch.prov,
              dedupList ((touches kg itn vid hits).filterMap Touch.term),
              (touches kg itn vid hits).length⟩) := by
  unfold buildCandidates
  rw [alookup_foldl_processHit]
  by_cases h : touches kg itn vid hits = []
  · simp [h, alookup]
  · simp only [if_neg h]
    rw [foldl_applyTouch]
    simp [alookup, VData.empty, dedupList]

/-! ### The accumulator's keys stay duplicate-free, so membership in the
final defaultdict determines the looked-up value. -/

theorem alookup_eq_some_of_mem {β : Type} :
    ∀ (m : List (String × β)), (m.map Prod.fst).Nodup →
      ∀ (k : String) (d : β), (k, d) ∈ m → alookup m k = some d := by
  intro m
  induction m with
  | nil => intro _ k d h; simp at h
  | cons a rest ih =>
    obtain ⟨ka, va⟩ := a
    intro hnd k d hmem
    simp only [List.map_cons, List.nodup_cons] at hnd
    rcases List.mem_cons.mp hmem with heq | htail
    · cases heq
      simp [alookup]
    · have hk : ¬ ka = k := by
        intro hka
        exact hnd.1 (hka ▸ (List.mem_map.mpr ⟨(k, d), htail, rfl⟩))
      simp only [alookup, if_neg hk]
      exact ih hnd.2 k d htail

theorem keys_updAcc (k : String) (f : VData → VData) :
    ∀ (m : List (String × VData)),
      (updAcc m k f).map Prod.fst =
        if k ∈ m.map Prod.fst then m.map Prod.fst
        else m.map Prod.fst ++ [k] := by
  intro m
  induction m with
  | nil => simp [updAcc]
  | cons a rest ih =>
    obtain ⟨ka, va⟩ := a
    by_cases hka : ka = k
    · simp [updAcc, hka]
    · have : ¬ k = ka := fun h => hka h.symm
      simp only [updAcc, if_neg hka, List.map_cons, List.mem_cons, this,
        false_or, ih]
      by_cases hmem : k ∈ rest.map Prod.fst <;> simp [hmem]

theorem nodup_keys_updAcc (m : List (String × VData)) (k : String)
    (f : VData → VData) (h : (m.map Prod.fst).Nodup) :
    ((updAcc m k f).map Prod.fst).Nodup := by
  rw [keys_updAcc]
  by_cases hmem : k ∈ m.map Prod.fst
  · simpa [hmem]
  · simp only [if_neg hmem, List.nodup_append]
    refine ⟨h, List.nodup_singleton k, ?_⟩
    intro a ha hb
    simp only [List.mem_singleton] at hb
    exact hmem (hb ▸ ha)

theorem nodup_keys_foldl_updAcc (g : String → VData → VData) :
    ∀ (l : List String) (acc : List (String × VData)),
      (acc.map Prod.fst).Nodup →
      (((l.foldl (fun a v => updAcc a v (g v)) acc)).map Prod.fst).Nodup := by
  intro l
  induction l with
  | nil => intro acc h; simpa
  | cons v rest ih =>
    intro acc h
    exact ih _ (nodup_keys_updAcc acc v (g v) h)

theorem nodup_keys_processHit (kg : KG) (itn : Int → String × String)
    (acc : List (String × VData)) (p : ℚ × Int)
    (h : (acc.map Prod.fst).Nodup) :
    ((processHit kg itn acc p).map Prod.fst).Nodup := by
  unfold processHit
  by_cases hskip : p.2 = -1
  · simpa [hskip]
  · simp only [if_neg hskip]
    set nt := itn p.2
    by_cases h1 : nt.1 = "verse"
    · simpa [h1] using nodup_keys_updAcc acc nt.2 _ h
    · simp only [if_neg h1]
      by_cases h2 : nt.1 = "commentary"
      · simp only [if_pos h2]
        cases alookup kg.commentaries nt.2 with
        | none => simpa
        | some c => simpa using nodup_keys_updAcc acc c.verse_id _ h
      · simp only [if_neg h2]
        by_cases h3 : nt.1 = "concept"
        · simp only [if_pos h3]
          cases alookup kg.concepts nt.2 with
          | none => simpa
          | some con =>
            simpa using nodup_keys_foldl_updAcc _ con.mentioned_in acc h
        · simpa [h3]

theorem nodup_keys_buildCandidates (kg : KG) (itn : Int → String × String)
    (hits : List (ℚ × Int)) :
    ((buildCandidates kg itn hits).map Prod.fst).Nodup := by
  unfold buildCandidates
  suffices h : ∀ (l : List (ℚ × Int)) (acc : List (String × VData)),
      (acc.map Prod.fst).Nodup →
      ((l.foldl (processHit kg itn) acc).map Prod.fst).Nodup by
    exact h hits [] (by simp)
  intro l
  induction l with
  | nil => intro acc h; simpa
  | cons p rest ih =>
    intro acc h
    exact ih _ (nodup_keys_processHit kg itn acc p h)

/-- The complete characterisation of any result the Candidate Aggregator
produces: its verse is in the store, it was touched by at least one hit,
and all its fields are the pointwise contributions of the hit list. -/
theorem mem_perform_search (kg : KG) (itn : Int → String × String)
    (hits : List (ℚ × Int)) (top_k : ℕ) (r : SearchResult)
    (hr : r ∈ perform_search kg itn hits top_k) :
    r.verse_id ∈ kg.verses ∧
    touches kg itn r.verse_id hits ≠ [] ∧
    r.score = finalScore ⟨(touches kg itn r.verse_id hits).map Touch.contrib,
      (touches kg itn r.verse_id hits).map Touch.prov,
      dedupList ((touches kg itn r.verse_id hits).filterMap Touch.term),
      (touches kg itn r.verse_id hits).length⟩ ∧
    r.provenance_path
      = dedupList ((touches kg itn r.verse_id hits).map Touch.prov) ∧
    r.related_concepts
      = dedupList ((touches kg itn r.verse_id hits).filterMap Touch.term) ∧
    r.support_count = (touches kg itn r.verse_id hits).length := by
  have hr1 : r ∈ mkResults kg (buildCandidates kg itn hits) := by
    have h2 := List.take_subset top_k _ hr
    exact (List.perm_insertionSort (fun a b => b.score ≤ a.score) _).subset h2
  obtain ⟨p, hp, hpr⟩ := List.mem_filterMap.mp hr1
  obtain ⟨k, d⟩ := p
  by_cases hv : k ∈ kg.verses
  · simp only [if_pos hv, Option.some.injEq] at hpr
    have hlk : alookup (buildCandidates kg itn hits) k = some d :=
      alookup_eq_some_of_mem _ (nodup_keys_buildCandidates kg itn hits) k d hp
    rw [alookup_buildCandidates] at hlk
    by_cases ht : touches kg itn k hits = []
    · simp [ht] at hlk
    · simp only [if_neg ht, Option.some.injEq] at hlk
      subst hpr
      exact ⟨hv, ht, by simp [← hlk], by simp [← hlk], by simp [← hlk],
        by simp [← hlk]⟩
  · simp [hv] at hpr

theorem dedupList_ne_nil_of_ne_nil {α : Type} [DecidableEq α] {l : List α}
    (h : l ≠ []) : dedupList l ≠ [] := by
  obtain ⟨x, t, rfl⟩ := List.exists_cons_of_ne_nil h
  exact dedupList_ne_nil x t

theorem hitTouches_contrib_nonneg (kg : KG) (itn : Int → String × String)
    (vid : String) (p : ℚ × Int) (hp : 0 ≤ p.1) :
    ∀ t ∈ hitTouches kg itn vid p, 0 ≤ t.contrib := by
  intro t ht
  by_cases h0 : p.2 = -1
  · simp [hitTouches, h0] at ht
  · unfold hitTouches at ht
    simp only [if_neg h0] at ht
    by_cases h1 : (itn p.2).1 = "verse"
    · simp only [if_pos h1] at ht
      by_cases h2 : (itn p.2).2 = vid
      · simp only [if_pos h2, List.mem_singleton] at ht
        subst ht; exact hp
      · simp [h2] at ht
    · simp only [if_neg h1] at ht
      by_cases h2 : (itn p.2).1 = "commentary"
      · simp only [if_pos h2] at ht
        cases hc : alookup kg.commentaries (itn p.2).2 with
        | none => simp [hc] at ht
        | some c =>
          simp only [hc] at ht
          by_cases h3 : c.verse_id = vid
          · simp only [if_pos h3, List.mem_singleton] at ht
            subst ht
            exact mul_nonneg hp (by norm_num)
          · simp [h3] at ht
      · simp only [if_neg h2] at ht
        by_cases h3 : (itn p.2).1 = "concept"
        · simp only [if_pos h3] at ht
          cases hc : alookup kg.concepts (itn p.2).2 with
          | none => simp [hc] at ht
          | some con =>
            simp only [hc, List.mem_map] at ht
            obtain ⟨v, -, rfl⟩ := ht
            exact mul_nonneg hp (by norm_num)
        · simp [h3] at ht

theorem listMean_nonneg {l : List ℚ} (h : ∀ x ∈ l, 0 ≤ x) : 0 ≤ listMean l := by
  unfold listMean
  by_cases hl : l = []
  · simp [hl]
  · simp only [if_neg hl]
    exact div_nonneg (List.sum_nonneg h) (by positivity)

theorem finalScore_nonneg (d : VData) (h : ∀ x ∈ d.scores, 0 ≤ x) :
    0 ≤ finalScore d := by
  unfold finalScore
  have h1 := listMean_nonneg h
  have h2 : (0:ℚ) ≤ (d.concepts.length : ℚ) * (1/10) := by positivity
  have h3 : (0:ℚ) ≤ min ((d.support_count : ℚ) * (1/20)) (1/5) :=
    le_min (by positivity) (by norm_num)
  linarith

/-- C3: every result the Candidate Aggregator produces scores exactly
`mean(contributed similarities) + 0.1 × (number of distinct contributing
concept terms) + min(0.05 × support_count, 0.2)`, where the contributed
similarities are the pointwise per-hit contributions of `hitTouches`
(verse hits weighted 1.0, commentary hits 0.9, concept hits 0.8) and
repeated hits on the same concept term are collapsed by `dedupList` before
the 0.1 boost. -/
theorem aggregate_score_formula (kg : KG) (itn : Int → String × String)
    (hits : List (ℚ × Int)) (top_k : ℕ) (r : SearchResult)
    (hr : r ∈ perform_search kg itn hits top_k) :
    r.support_count = (touches kg itn r.verse_id hits).length ∧
    r.score =
      listMean ((touches kg itn r.verse_id hits).map Touch.contrib)
        + ((dedupList ((touches kg itn r.verse_id hits).filterMap Touch.term)).length : ℚ)
            * (1/10)
        + min ((r.support_count : ℚ) * (1/20)) (1/5) := by
  obtain ⟨-, -, hscore, -, -, hsup⟩ := mem_perform_search kg itn hits top_k r hr
  refine ⟨hsup, ?_⟩
  rw [hscore, hsup]
  unfold finalScore
  rfl

/-- Witness for the C3 theorem: a single direct verse hit of similarity 1
yields score `1 + 0 + 1/20`. -/
theorem aggregate_score_formula_witness :
    (⟨"v1", 21/20, ["Query ‚Üí Verse(v1)"], [], 1⟩ : SearchResult) ∈
      perform_search ⟨["v1"], [], []⟩
        (fun i => if i = 0 then ("verse", "v1") else ("", "")) [(1, 0)] 5 ∧
    ((⟨"v1", 21/20, ["Query ‚Üí Verse(v1)"], [], 1⟩ : SearchResult).support_count
        = (touches ⟨["v1"], [], []⟩
            (fun i => if i = 0 then ("verse", "v1") else ("", "")) "v1"
            [(1, 0)]).length ∧
      (⟨"v1", 21/20, ["Query ‚Üí Verse(v1)"], [], 1⟩ : SearchResult).score =
        listMean ((touches ⟨["v1"], [], []⟩
            (fun i => if i = 0 then ("verse", "v1") else ("", "")) "v1"
            [(1, 0)]).map Touch.contrib)
          + ((dedupList ((touches ⟨["v1"], [], []⟩
              (fun i => if i = 0 then ("verse", "v1") else ("", "")) "v1"
              [(1, 0)]).filterMap Touch.term)).length : ℚ) * (1/10)
          + min (((⟨"v1", 21/20, ["Query ‚Üí Verse(v1)"], [], 1⟩ : SearchResult).support_count : ℚ)
              * (1/20)) (1/5)) :=
  have hmem : (⟨"v1", 21/20, ["Query ‚Üí Verse(v1)"], [], 1⟩ : SearchResult) ∈
      perform_search ⟨["v1"], [], []⟩
        (fun i => if i = 0 then ("verse", "v1") else ("", "")) [(1, 0)] 5 := by
    norm_num [perform_search, mkResults, buildCandidates, processHit, updAcc,
      alookup, finalScore, listMean, dedupList, insertNew, List.insertionSort,
      List.orderedInsert, VData.empty, applyTouch, provVerse, List.filterMap,
      List.foldl]
    rfl
  ⟨hmem, aggregate_score_formula _ _ _ 5 _ hmem⟩

/-- C9: every result the Candidate Aggregator produces has support count at
least 1 and a non-empty provenance list, and its accumulator entry holds a
non-empty contributed-similarity list, a non-empty provenance list and a
positive support count. -/
theorem aggregate_result_nonempty_support (kg : KG)
    (itn : Int → String × String) (hits : List (ℚ × Int)) (top_k : ℕ)
    (r : SearchResult) (hr : r ∈ perform_search kg itn hits top_k) :
    1 ≤ r.support_count ∧ r.provenance_path ≠ [] ∧
    ∃ d, alookup (buildCandidates kg itn hits) r.verse_id = some d ∧
      d.scores ≠ [] ∧ d.provenance_paths ≠ [] ∧ 1 ≤ d.support_count := by
  obtain ⟨-, ht, -, hprov, -, hsup⟩ := mem_perform_search kg itn hits top_k r hr
  have hlen : 1 ≤ (touches kg itn r.verse_id hits).length :=
    Nat.one_le_iff_ne_zero.mpr (fun h => ht (List.length_eq_zero.mp h))
  have hmapne : (touches kg itn r.verse_id hits).map Touch.prov ≠ [] := by
    simpa [List.map_eq_nil_iff] using ht
  refine ⟨hsup ▸ hlen, hprov ▸ dedupList_ne_nil_of_ne_nil hmapne, ?_⟩
  refine ⟨⟨(touches kg itn r.verse_id hits).map Touch.contrib,
    (touches kg itn r.verse_id hits).map Touch.prov,
    dedupList ((touches kg itn r.verse_id hits).filterMap Touch.term),
    (touches kg itn r.verse_id hits).length⟩, ?_, ?_, ?_, ?_⟩
  · rw [alookup_buildCandidates kg itn hits r.verse_id, if_neg ht]
  · simpa [List.map_eq_nil_iff] using ht
  · exact hmapne
  · exact hlen

/-- Witness for the C9 theorem: one commentary hit resolving to its verse. -/
theorem aggregate_result_nonempty_support_witness :
    1 ≤ (⟨"v2", 27/50, ["Query ‚Üí Commentary(Advaita) ‚Üí Verse(v2)"], [], 1⟩
        : SearchResult).support_count ∧
    (⟨"v2", 27/50, ["Query ‚Üí Commentary(Advaita) ‚Üí Verse(v2)"], [], 1⟩
        : SearchResult).provenance_path ≠ [] :=
  have h := aggregate_result_nonempty_support
    ⟨["v2"], [], [("c1", ⟨"Advaita", "v2"⟩)]⟩
    (fun i => if i = 0 then ("commentary", "c1") else ("", ""))
    [(49/90, 0)] 3
    ⟨"v2", 27/50, ["Query ‚Üí Commentary(Advaita) ‚Üí Verse(v2)"], [], 1⟩
    (by
      norm_num [perform_search, mkResults, buildCandidates, processHit, updAcc,
        alookup, finalScore, listMean, dedupList, insertNew, List.insertionSort,
        List.orderedInsert, VData.empty, applyTouch, provCommentary,
        List.filterMap, List.foldl]
      rfl)
  ⟨h.1, h.2.1⟩

/-- C8 counterexample: FAISS similarities may be negative (normalized
embeddings give cosine scores in [-1, 1]), and the aggregator applies no
lower clamp, so a raw hit list can produce a strictly negative result
score: a single direct verse hit of similarity -1 scores `-1 + 1/20`. -/
theorem aggregate_negative_score_cx :
    ∃ r ∈ perform_search ⟨["v3"], [], []⟩
        (fun i => if i = 0 then ("verse", "v3") else ("", ""))
        [(-1, 0)] 5, r.score < 0 := by
  refine ⟨⟨"v3", -19/20, ["Query ‚Üí Verse(v3)"], [], 1⟩, ?_, by norm_num⟩
  norm_num [perform_search, mkResults, buildCandidates, processHit, updAcc,
    alookup, finalScore, listMean, dedupList, insertNew, List.insertionSort,
    List.orderedInsert, VData.empty, applyTouch, provVerse, List.filterMap,
    List.foldl]
  rfl

/-- C8 (amended): when every raw hit similarity is non-negative, every
produced result score is non-negative (finiteness is inherent in the
rational-number model of the float scores). -/
theorem aggregate_score_nonneg (kg : KG) (itn : Int → String × String)
    (hits : List (ℚ × Int)) (top_k : ℕ) (r : SearchResult)
    (hn : ∀ p ∈ hits, 0 ≤ p.1) (hr : r ∈ perform_search kg itn hits top_k) :
    0 ≤ r.score := by
  obtain ⟨-, -, hscore, -, -, -⟩ := mem_perform_search kg itn hits top_k r hr
  rw [hscore]
  apply finalScore_nonneg
  intro x hx
  have hx' : x ∈ (touches kg itn r.verse_id hits).map Touch.contrib := hx
  obtain ⟨t, htm, rfl⟩ := List.mem_map.mp hx'
  obtain ⟨p, hpm, htp⟩ := List.mem_flatMap.mp htm
  exact hitTouches_contrib_nonneg kg itn r.verse_id p (hn p hpm) t htp

/-- Witness for the amended C8 theorem at a concrete non-negative hit list. -/
theorem aggregate_score_nonneg_witness :
    0 ≤ (⟨"v4", 31/40, ["Query ‚Üí Verse(v4)"], [], 1⟩ : SearchResult).score :=
  aggregate_score_nonneg ⟨["v4"], [], []⟩
    (fun i => if i = 0 then ("verse", "v4") else ("", ""))
    [(29/40, 0)] 2
    ⟨"v4", 31/40, ["Query ‚Üí Verse(v4)"], [], 1⟩
    (by norm_num)
    (by
      norm_num [perform_search, mkResults, buildCandidates, processHit, updAcc,
        alookup, finalScore, listMean, dedupList, insertNew, List.insertionSort,
        List.orderedInsert, VData.empty, applyTouch, provVerse, List.filterMap,
        List.foldl]
      rfl)

/-! ## Python string primitives

The text-processing built-ins the pipeline uses (`str.split`, `str.strip`,
`str.lower`, slicing) are modelled structurally over the character list of
a `String`; whitespace is `Char.isWhitespace` (space, tab, CR, LF), which
matches Python's behaviour on the ASCII texts involved. -/

/-- Split a character list at every character satisfying `p` (separators are
dropped, empty pieces kept) — the pieces of `re.split` over a class of
single characters, and of `str.split(sep)`. -/
def pySplitChars (p : Char → Bool) : List Char → List Char → List (List Char)
  | [], cur => [cur.reverse]
  | c :: r, cur =>
    if p c then cur.reverse :: pySplitChars p r []
    else pySplitChars p r (c :: cur)

def pySplit (p : Char → Bool) (s : String) : List String :=
  (pySplitChars p s.data []).map String.mk

def dropWs : List Char → List Char
  | [] => []
  | c :: r => if c.isWhitespace then dropWs r else c :: r

/-- Python `str.strip()`. -/
def pyStrip (s : String) : String :=
  ⟨(dropWs (dropWs s.data).reverse).reverse⟩

/-- Python `str.split()` with no argument: split on whitespace runs,
dropping empty pieces. -/
def pyWords (s : String) : List String :=
  ((pySplitChars Char.isWhitespace s.data []).map String.mk).filter
    (fun w => w ≠ "")

/-- Python `str.lower()` (ASCII). -/
def pyLower (s : String) : String := ⟨s.data.map Char.toLower⟩

/-- Python `s[:n]` character slicing. -/
def pyTake (s : String) (n : ℕ) : String := ⟨s.data.take n⟩

def pyLen (s : String) : ℕ := s.data.length

/-- Python `' '.join(words)`. -/
def joinWords : List String → String
  | [] => ""
  | [w] => w
  | w :: rest => w ++ " " ++ joinWords rest

/-- `words[i:i+n]` windows for `i in range(0, len(words), n)`; the source
always calls this with `n = int(200/1.3) = 153 ≥ 1`, and `max n 1` guards
the (unreachable in the source) zero step. -/
def chunksOf (n : ℕ) (l : List String) : List (List String) :=
  if l = [] then []
  else l.take (max n 1) :: chunksOf n (l.drop (max n 1))
  termination_by l.length
  decreasing_by
    have hl : l ≠ [] := by assumption
    have h0 : 0 < l.length := List.length_pos.mpr hl
    simp only [List.length_drop]
    omega

/-! ## Excerpt Selector (`split_text_into_sentences`, `select_top_excerpts`,
src/main.py lines 1289–1399) -/

def split_text_into_sentences (text : String) (max_tokens : ℚ) : List String :=
  if text = "" then []
  else
    (pySplit (fun c => c == '.' || c == '!' || c == '?') text).foldl
      (fun acc sraw =>
        let s := pyStrip sraw
        if s = "" then acc
        else if ((pyWords s).length : ℚ) * (13/10) ≤ max_tokens then acc ++ [s]
        else
          acc ++ ((chunksOf (max_tokens / (13/10)).floor.toNat (pyWords s)).map
            (fun ch => pyStrip (joinWords ch))).filter (fun ch => ch ≠ ""))
      []

structure CommentaryData where
  id : String
  school : String
  text : String
  deriving DecidableEq

structure Excerpt where
  id : String
  school : String
  text : String
  similarity : ℚ
  deriving DecidableEq

def getCount (counts : List (String × ℕ)) (s : String) : ℕ :=
  (alookup counts s).getD 0

def setCount (counts : List (String × ℕ)) (s : String) (v : ℕ) :
    List (String × ℕ) :=
  match counts with
  | [] => [(s, v)]
  | (k, c) :: rest =>
    if k = s then (k, v) :: rest else (k, c) :: setCount rest s v

/-- The inner `for sentence in sentences` loop of `select_top_excerpts`:
skip snippets shorter than 5 characters after stripping, append the rest,
bump the school count, break once the school reaches `max_per_school`.
Returns the appended excerpts and the school's final count. -/
def addSentences (cid school : String) (maxPS : ℕ) :
    List String → ℕ → List Excerpt × ℕ
  | [], c => ([], c)
  | s :: rest, c =>
    if pyLen (pyStrip s) < 5 then addSentences cid school maxPS rest c
    else if maxPS ≤ c + 1 then ([⟨cid, school, s, 0⟩], c + 1)
    else
      let p := addSentences cid school maxPS rest (c + 1)
      (⟨cid, school, s, 0⟩ :: p.1, p.2)

/-- The outer `for commentary in commentaries_data` loop (capped snippet
collection): a commentary whose school already reached the cap is skipped
whole. -/
def snippetLoop (maxPS : ℕ) :
    List CommentaryData → List (String × ℕ) → List Excerpt
  | [], _ => []
  | c :: rest, counts =>
    if maxPS ≤ getCount counts c.school then snippetLoop maxPS rest counts
    else
      let p := addSentences c.id c.school maxPS
        (split_text_into_sentences c.text 200) (getCount counts c.school)
      p.1 ++ snippetLoop maxPS rest (setCount counts c.school p.2)

/-- The `if not excerpts` fallback: first 500 characters of every commentary
with more than 5 characters after stripping, bypassing the per-school cap. -/
def fallbackExcerpts (cd : List CommentaryData) : List Excerpt :=
  cd.filterMap (fun c =>
    if 5 < pyLen (pyStrip c.text) then some ⟨c.id, c.school, pyTake c.text 500, 0⟩
    else none)

def candidateExcerpts (cd : List CommentaryData) (maxPS : ℕ) : List Excerpt :=
  let es := snippetLoop maxPS cd []
  if es = [] then fallbackExcerpts cd else es

/-- `select_top_excerpts`.  The embedding-and-cosine step is opaque: `simF =
some sim` gives the similarity of an excerpt text to the query (the
`try` branch), `simF = none` is the `except` branch.  `modelOk` is the
truthiness of the model argument.  The query enters only through `simF`. -/
def select_top_excerpts (cd : List CommentaryData) (maxE maxPS : ℕ)
    (modelOk : Bool) (simF : Option (String → ℚ)) : List Excerpt :=
  if cd = [] ∨ modelOk = false then []
  else
    let ex := candidateExcerpts cd maxPS
    if ex = [] then []
    else
      match simF with
      | none => ex.take (min maxE ex.length)
      | some sim =>
        let scored := ex.map (fun e => { e with similarity := sim e.text })
        let sorted :=
          List.insertionSort (fun a b => b.similarity ≤ a.similarity) scored
        let selected := sorted.take maxE
        if selected = [] ∨ (selected.headD ⟨"", "", "", 0⟩).similarity < (1/10 : ℚ) then
          sorted.take (min 8 sorted.length)
        else selected

/-! ### Per-school and total caps of the Excerpt Selector -/

theorem getCount_setCount (k : String) (v : ℕ) :
    ∀ (counts : List (String × ℕ)) (x : String),
      getCount (setCount counts k v) x = if k = x then v else getCount counts x := by
  intro counts
  induction counts with
  | nil =>
    intro x
    by_cases h : k = x <;> simp [setCount, getCount, alookup, h]
  | cons a rest ih =>
    obtain ⟨ka, ca⟩ := a
    intro x
    by_cases hka : ka = k
    · subst hka
      by_cases h : ka = x <;> simp [setCount, getCount, alookup, h]
    · by_cases h : ka = x
      · subst h
        have : ¬ k = ka := fun hh => hka hh.symm
        simp [setCount, getCount, alookup, hka, this]
      · simp only [setCount, if_neg hka, getCount, alookup, if_neg h]
        simpa [getCount] using ih x

theorem addSentences_spec (cid school : String) (maxPS : ℕ) :
    ∀ (sents : List String) (c : ℕ),
      (∀ e ∈ (addSentences cid school maxPS sents c).1, e.school = school) ∧
      (addSentences cid school maxPS sents c).2
        = c + (addSentences cid school maxPS sents c).1.length ∧
      (c < maxPS → (addSentences cid school maxPS sents c).2 ≤ maxPS) := by
  intro sents
  induction sents with
  | nil =>
    intro c
    refine ⟨by simp [addSentences], by simp [addSentences], ?_⟩
    simp only [addSentences]
    omega
  | cons s rest ih =>
    intro c
    by_cases h5 : pyLen (pyStrip s) < 5
    · simpa [addSentences, h5] using ih c
    · by_cases hbr : maxPS ≤ c + 1
      · refine ⟨?_, ?_, ?_⟩ <;> simp [addSentences, h5, hbr]
        omega
      · obtain ⟨ih1, ih2, ih3⟩ := ih (c + 1)
        refine ⟨?_, ?_, ?_⟩
        · intro e he
          simp only [addSentences, if_neg h5, if_neg hbr, List.mem_cons] at he
          rcases he with rfl | hm
          · rfl
          · exact ih1 e hm
        · simp only [addSentences, if_neg h5, if_neg hbr, List.length_cons]
          omega
        · intro hc
          simp only [addSentences, if_neg h5, if_neg hbr]
          exact ih3 (by omega)

theorem snippetLoop_school_bound (maxPS : ℕ) (s : String) :
    ∀ (cdl : List CommentaryData) (counts : List (String × ℕ)),
      (∀ x, getCount counts x ≤ maxPS) →
      (snippetLoop maxPS cdl counts).countP (fun e => decide (e.school = s))
        + getCount counts s ≤ maxPS := by
  intro cdl
  induction cdl with
  | nil => intro counts h; simpa [snippetLoop] using h s
  | cons c rest ih =>
    intro counts h
    by_cases hskip : maxPS ≤ getCount counts c.school
    · simpa [snippetLoop, hskip] using ih counts h
    · have hlt : getCount counts c.school < maxPS := by omega
      simp only [snippetLoop, if_neg hskip, List.countP_append]
      obtain ⟨ha1, ha2, ha3⟩ := addSentences_spec c.id c.school maxPS
        (split_text_into_sentences c.text 200) (getCount counts c.school)
      generalize hgen : addSentences c.id c.school maxPS
        (split_text_into_sentences c.text 200) (getCount counts c.school)
        = p at ha1 ha2 ha3 ⊢
      have hple : p.2 ≤ maxPS := ha3 hlt
      have hcounts' : ∀ x, getCount (setCount counts c.school p.2) x ≤ maxPS := by
        intro x
        rw [getCount_setCount]
        by_cases hx : c.school = x
        · simpa [hx] using hple
        · simpa [hx] using h x
      have hrest := ih (setCount counts c.school p.2) hcounts'
      rw [getCount_setCount] at hrest
      by_cases hs : c.school = s
      · subst hs
        have hp1 : p.1.countP (fun e => decide (e.school = c.school))
            ≤ p.1.length := List.countP_le_length _
        simp at hrest
        omega
      · have hp1 : p.1.countP (fun e => decide (e.school = s)) = 0 := by
          rw [List.countP_eq_zero]
          intro e he
          simp only [decide_eq_true_eq]
          rw [ha1 e he]
          exact hs
        simp only [if_neg hs] at hrest
        omega

theorem select_output_countP_le (cd : List CommentaryData) (maxE maxPS : ℕ)
    (modelOk : Bool) (simF : Option (String → ℚ)) (p : Excerpt → Bool)
    (hp : ∀ e q, p { e with similarity := q } = p e) :
    (select_top_excerpts cd maxE maxPS modelOk simF).countP p ≤
      (candidateExcerpts cd maxPS).countP p := by
  unfold select_top_excerpts
  by_cases h0 : cd = [] ∨ modelOk = false
  · simp [h0]
  · simp only [if_neg h0]
    by_cases hex : candidateExcerpts cd maxPS = []
    · simp [hex]
    · simp only [if_neg hex]
      cases simF with
      | none =>
        simpa using (List.take_sublist _ _).countP_le p
      | some sim =>
        have hscored : (((candidateExcerpts cd maxPS).map
            (fun e => { e with similarity := sim e.text })).countP p)
            = (candidateExcerpts cd maxPS).countP p := by
          rw [List.countP_map]
          congr 1
          funext e
          exact hp e (sim e.text)
        have hsorted : ((List.insertionSort (fun a b => b.similarity ≤ a.similarity)
            ((candidateExcerpts cd maxPS).map
              (fun e => { e with similarity := sim e.text }))).countP p)
            = (candidateExcerpts cd maxPS).countP p := by
          rw [(List.perm_insertionSort _ _).countP_eq, hscored]
        set sorted := List.insertionSort (fun a b => b.similarity ≤ a.similarity)
          ((candidateExcerpts cd maxPS).map
            (fun e => { e with similarity := sim e.text })) with hsdef
        by_cases hcond : sorted.take maxE = [] ∨
            ((sorted.take maxE).headD ⟨"", "", "", 0⟩).similarity < 1/10
        · simp only [if_pos hcond]
          calc (sorted.take (min 8 sorted.length)).countP p
              ≤ sorted.countP p := (List.take_sublist _ _).countP_le p
            _ = _ := hsorted
        · simp only [if_neg hcond]
          calc (sorted.take maxE).countP p
              ≤ sorted.countP p := (List.take_sublist _ _).countP_le p
            _ = _ := hsorted

theorem select_output_length_le (cd : List CommentaryData) (maxE maxPS : ℕ)
    (modelOk : Bool) (simF : Option (String → ℚ)) :
    (select_top_excerpts cd maxE maxPS modelOk simF).length ≤ max maxE 8 := by
  unfold select_top_excerpts
  by_cases h0 : cd = [] ∨ modelOk = false
  · simp [h0]
  · simp only [if_neg h0]
    by_cases hex : candidateExcerpts cd maxPS = []
    · simp [hex]
    · simp only [if_neg hex]
      cases simF with
      | none =>
        simp only [List.length_take]
        omega
      | some sim =>
        set sorted := List.insertionSort (fun a b => b.similarity ≤ a.similarity)
          ((candidateExcerpts cd maxPS).map
            (fun e => { e with similarity := sim e.text })) with hsdef
        by_cases hcond : sorted.take maxE = [] ∨
            ((sorted.take maxE).headD ⟨"", "", "", 0⟩).similarity < 1/10
        · simp only [if_pos hcond, List.length_take]
          omega
        · simp only [if_neg hcond, List.length_take]
          omega

/-- C4 (amended): in the capped (snippet) path no school exceeds
`max_per_school` in the returned list; the total never exceeds
`max(max_excerpts, 8)` on any path — with the source's default
`max_excerpts = 16` this is `max_excerpts` itself, but the low-similarity
fallback slice returns up to `min(8, n)` excerpts, which exceeds
`max_excerpts` whenever `max_excerpts < 8 ≤ n`. -/
theorem select_top_excerpts_caps (cd : List CommentaryData) (maxE maxPS : ℕ)
    (modelOk : Bool) (simF : Option (String → ℚ)) (s : String)
    (hsnip : snippetLoop maxPS cd [] ≠ []) :
    (select_top_excerpts cd maxE maxPS modelOk simF).countP
        (fun e => decide (e.school = s)) ≤ maxPS ∧
    (select_top_excerpts cd maxE maxPS modelOk simF).length ≤ max maxE 8 := by
  refine ⟨?_, select_output_length_le cd maxE maxPS modelOk simF⟩
  have hcand : candidateExcerpts cd maxPS = snippetLoop maxPS cd [] := by
    unfold candidateExcerpts
    simp [hsnip]
  have hbound := snippetLoop_school_bound maxPS s cd []
    (by intro x; simp [getCount, alookup])
  simp only [getCount, alookup, Option.getD_none, Nat.add_zero] at hbound
  calc (select_top_excerpts cd maxE maxPS modelOk simF).countP
        (fun e => decide (e.school = s))
      ≤ (candidateExcerpts cd maxPS).countP (fun e => decide (e.school = s)) :=
        select_output_countP_le cd maxE maxPS modelOk simF _ (fun e q => rfl)
    _ ≤ maxPS := by rw [hcand]; exact hbound

/-- C4 counterexample: with caps `max_excerpts = 2, max_per_school = 6` and
three low-similarity snippet excerpts, the low-similarity fallback slice
returns `min(8, 3) = 3` excerpts, exceeding `max_excerpts`. -/
theorem select_total_cap_cx :
    ¬ ((select_top_excerpts [⟨"C1", "S", "aaaaa. bbbbb. ccccc"⟩] 2 6 true
        (some (fun _ => (1/100 : ℚ)))).length ≤ 2) := by
  have hev : select_top_excerpts [⟨"C1", "S", "aaaaa. bbbbb. ccccc"⟩] 2 6 true
      (some (fun _ => (1/100 : ℚ))) =
      [⟨"C1", "S", "aaaaa", 1/100⟩, ⟨"C1", "S", "bbbbb", 1/100⟩,
       ⟨"C1", "S", "ccccc", 1/100⟩] := by
    simp [select_top_excerpts, candidateExcerpts, snippetLoop, addSentences,
      split_text_into_sentences, pySplit, pySplitChars, pyStrip, dropWs,
      pyWords, pyLen, getCount, setCount, alookup, joinWords, fallbackExcerpts,
      List.insertionSort, List.orderedInsert]
    norm_num
    rfl
  rw [hev]
  norm_num

/-- Witness for the amended C4 theorem at a concrete two-snippet pool. -/
theorem select_top_excerpts_caps_witness :
    (select_top_excerpts [⟨"C2", "T", "ddddd. eeeee"⟩] 16 6 true none).countP
        (fun e => decide (e.school = "T")) ≤ 6 ∧
    (select_top_excerpts [⟨"C2", "T", "ddddd. eeeee"⟩] 16 6 true none).length
      ≤ max 16 8 :=
  select_top_excerpts_caps _ 16 6 true none "T" (by
    have h : snippetLoop 6 [⟨"C2", "T", "ddddd. eeeee"⟩] [] =
        [⟨"C2", "T", "ddddd", 0⟩, ⟨"C2", "T", "eeeee", 0⟩] := by
      simp [snippetLoop, addSentences, split_text_into_sentences, pySplit,
        pySplitChars, pyStrip, dropWs, pyWords, pyLen, getCount, setCount,
        alookup, joinWords]
      norm_num
      rfl
    simp [h])

/-- C7 counterexample: under uniformly low similarity the code does NOT
return the first `min(8, n)` candidate excerpts in original order — the
list was already sorted in place by similarity, so the fallback slice is in
descending-similarity order ("bbbbb" with 1/20 before "aaaaa" with 1/100,
while the original candidate order is "aaaaa" then "bbbbb"). -/
theorem select_low_sim_original_order_cx :
    select_top_excerpts [⟨"C1", "S", "aaaaa. bbbbb"⟩] 16 6 true
        (some (fun t => if t = "aaaaa" then (1/100 : ℚ) else 1/20))
      ≠ ((candidateExcerpts [⟨"C1", "S", "aaaaa. bbbbb"⟩] 6).map
          (fun e => { e with similarity :=
            (fun t => if t = "aaaaa" then (1/100 : ℚ) else 1/20) e.text })).take
          (min 8 (((candidateExcerpts [⟨"C1", "S", "aaaaa. bbbbb"⟩] 6).map
            (fun e => { e with similarity :=
              (fun t => if t = "aaaaa" then (1/100 : ℚ) else 1/20) e.text })).length)) := by
  have h1 : select_top_excerpts [⟨"C1", "S", "aaaaa. bbbbb"⟩] 16 6 true
      (some (fun t => if t = "aaaaa" then (1/100 : ℚ) else 1/20)) =
      [⟨"C1", "S", "bbbbb", 1/20⟩, ⟨"C1", "S", "aaaaa", 1/100⟩] := by
    simp [select_top_excerpts, candidateExcerpts, snippetLoop, addSentences,
      split_text_into_sentences, pySplit, pySplitChars, pyStrip, dropWs,
      pyWords, pyLen, getCount, setCount, alookup, joinWords, fallbackExcerpts,
      List.insertionSort, List.orderedInsert, List.take]
    norm_num
    simp [select_top_excerpts, candidateExcerpts, snippetLoop, addSentences,
      split_text_into_sentences, pySplit, pySplitChars, pyStrip, dropWs,
      pyWords, pyLen, getCount, setCount, alookup, joinWords, fallbackExcerpts,
      List.insertionSort, List.orderedInsert, List.take]
    norm_num [select_top_excerpts, candidateExcerpts, snippetLoop, addSentences,
      split_text_into_sentences, pySplit, pySplitChars, pyStrip, dropWs,
      pyWords, pyLen, getCount, setCount, alookup, joinWords, fallbackExcerpts,
      List.insertionSort, List.orderedInsert, List.take]
  have h2 : candidateExcerpts [⟨"C1", "S", "aaaaa. bbbbb"⟩] 6 =
      [⟨"C1", "S", "aaaaa", 0⟩, ⟨"C1", "S", "bbbbb", 0⟩] := by
    simp [candidateExcerpts, snippetLoop, addSentences,
      split_text_into_sentences, pySplit, pySplitChars, pyStrip, dropWs,
      pyWords, pyLen, getCount, setCount, alookup, joinWords, fallbackExcerpts]
    norm_num
    rfl
  rw [h1, h2]
  simp [List.take]

/-- C7 (amended): when the similarity computation succeeds and every
candidate excerpt's similarity is below the 0.1 threshold, the selector
returns the `min(8, n)` HIGHEST-similarity excerpts in
descending-similarity order (the candidate list was sorted in place before
the fallback slice, so the original unranked order is not restored). -/
theorem select_low_similarity_ranked (cd : List CommentaryData)
    (maxE maxPS : ℕ) (sim : String → ℚ) (hcd : cd ≠ [])
    (hex : candidateExcerpts cd maxPS ≠ [])
    (hlow : ∀ e ∈ (candidateExcerpts cd maxPS).map
        (fun e => { e with similarity := sim e.text }),
        e.similarity < (1/10 : ℚ)) :
    select_top_excerpts cd maxE maxPS true (some sim) =
      (List.insertionSort (fun a b => b.similarity ≤ a.similarity)
        ((candidateExcerpts cd maxPS).map
          (fun e => { e with similarity := sim e.text }))).take
        (min 8 ((List.insertionSort (fun a b => b.similarity ≤ a.similarity)
          ((candidateExcerpts cd maxPS).map
            (fun e => { e with similarity := sim e.text }))).length)) := by
  have h0 : ¬ (cd = [] ∨ (true : Bool) = false) := by simp [hcd]
  simp only [select_top_excerpts, if_neg h0, if_neg hex]
  set sorted := List.insertionSort (fun a b => b.similarity ≤ a.similarity)
    ((candidateExcerpts cd maxPS).map
      (fun e => { e with similarity := sim e.text })) with hsdef
  have hcond : sorted.take maxE = [] ∨
      ((sorted.take maxE).headD ⟨"", "", "", 0⟩).similarity < (1/10 : ℚ) := by
    by_cases hnil : sorted.take maxE = []
    · exact Or.inl hnil
    · right
      obtain ⟨e0, tl, heq⟩ := List.exists_cons_of_ne_nil hnil
      have hmem : e0 ∈ sorted.take maxE := heq ▸ List.mem_cons_self e0 tl
      have hmem2 : e0 ∈ sorted := List.take_subset maxE sorted hmem
      have hmem3 : e0 ∈ (candidateExcerpts cd maxPS).map
          (fun e => { e with similarity := sim e.text }) :=
        (List.perm_insertionSort _ _).subset hmem2
      rw [heq]
      simpa using hlow e0 hmem3
  rw [if_pos hcond]

/-- Witness for the amended C7 theorem at a concrete low-similarity pool. -/
theorem select_low_similarity_ranked_witness :
    select_top_excerpts [⟨"C3", "U", "fffff. ggggg"⟩] 16 6 true
        (some (fun _ => (1/100 : ℚ))) =
      (List.insertionSort (fun a b => b.similarity ≤ a.similarity)
        ((candidateExcerpts [⟨"C3", "U", "fffff. ggggg"⟩] 6).map
          (fun e => { e with similarity := (fun _ => (1/100 : ℚ)) e.text }))).take
        (min 8 ((List.insertionSort (fun a b => b.similarity ≤ a.similarity)
          ((candidateExcerpts [⟨"C3", "U", "fffff. ggggg"⟩] 6).map
            (fun e => { e with similarity := (fun _ => (1/100 : ℚ)) e.text }))).length)) :=
  have h2 : candidateExcerpts [⟨"C3", "U", "fffff. ggggg"⟩] 6 =
      [⟨"C3", "U", "fffff", 0⟩, ⟨"C3", "U", "ggggg", 0⟩] := by
    simp [candidateExcerpts, snippetLoop, addSentences,
      split_text_into_sentences, pySplit, pySplitChars, pyStrip, dropWs,
      pyWords, pyLen, getCount, setCount, alookup, joinWords, fallbackExcerpts]
    norm_num
    rfl
  select_low_similarity_ranked _ 16 6 _ (by simp)
    (by simp [h2])
    (by
      intro e he
      rw [h2] at he
      simp only [List.map_cons, List.map_nil, List.mem_cons,
        List.not_mem_nil, or_false] at he
      rcases he with rfl | rfl <;> norm_num)

/-! ## Confidence Estimator (`compute_hybrid_confidence`,
src/main.py lines 1401–1424)

Python raises `ZeroDivisionError` when a divisor is zero; the embedding
returns `none` on those branches (the caller's enclosing `try` maps such an
exception to the error sentinel). -/

def compute_hybrid_confidence (supporting_excerpts : List Excerpt)
    (total_schools support_count N : ℕ) (model_confidence : Option ℚ) :
    Option ℚ :=
  if supporting_excerpts = [] then some 0
  else if min total_schools 4 = 0 ∨ N = 0 then none
  else
    let distinct_schools :=
      (dedupList (supporting_excerpts.map (fun e => e.school))).length
    let coverage := (distinct_schools : ℚ) / ((min total_schools 4 : ℕ) : ℚ)
    let support_strength := (support_count : ℚ) / (N : ℚ)
    let computed := (2/10) * coverage + (1/10) * support_strength
    some (min
      (match model_confidence with
        | some mc => (5/10) * mc + (5/10) * computed
        | none => computed) 1)

/-! ## Synthesis Validator (`query_groq_api_aggregate`,
src/main.py lines 1430–1685)

The HTTP call and the two JSON-parse attempts are opaque: a
`ServiceOutcome` input carries the branch the response-handling code takes
(non-200 status, an exception anywhere in the `try` block, or a 200
response whose content parsed directly, parsed after brace-extraction, or
failed both parses). -/

structure SynthesisResult where
  summary : String
  direction : String
  supporting_ids : List String
  supporting_schools : List String
  confidence_score : ℚ
  note : String
  deriving DecidableEq

/-- A parsed JSON object, reduced to the six fields the validator reads:
`none` models a missing key (or, for the lists and the confidence, a value
of the wrong runtime type, which the validator treats the same way). -/
structure ParsedResult where
  summary : Option String
  direction : Option String
  supporting_ids : Option (List String)
  supporting_schools : Option (List String)
  confidence_score : Option ℚ
  note : Option String
  deriving DecidableEq

inductive RawParse where
  | parsed (r : ParsedResult)
  | recovered (r : ParsedResult)
  | unparseable (raw : String)
  deriving DecidableEq

inductive ServiceOutcome where
  | httpError (code : ℕ)
  | exnMsg (msg : String)
  | ok (parse : RawParse)
  deriving DecidableEq

def insufficientResult (note : String) : SynthesisResult :=
  ⟨"INSUFFICIENT_GROUNDED_EVIDENCE", "insufficient_evidence", [], [], 0, note⟩

def apiErrorNote (code : ℕ) : String :=
  "API error: " ++ toString code ++
    (if code = 401 then " - Invalid API key"
     else if code = 429 then " - Rate limit exceeded"
     else if code = 500 then " - Server error" else "")

/-- Lines 1626–1629: missing / non-numeric confidence becomes 0.0, a
numeric one is clamped into [0, 1]. -/
def coerceClamp : Option ℚ → ℚ
  | none => 0
  | some v => max 0 (min 1 v)

def allowedDirections : List String :=
  ["practical_action", "renunciation", "devotional", "jnana", "mixed",
   "insufficient_evidence"]

def totalSchools (cd : List CommentaryData) : ℕ :=
  (dedupList (cd.map (fun c => c.school))).length

def fewShotExample : String :=
  "Example:\nUser question: \"What is dharma?\"\nEXCERPTS:\nC1 | Sri Vaisnava Sampradaya | \"Dharma means righteous duty according to one\x27s station in life...\"\nC2 | Advaita Vedanta | \"Dharma is the eternal law that upholds cosmic order...\"\n\nExpected JSON:\n\x7b\n  \"summary\": \"Dharma represents righteous duty and eternal law that maintains cosmic order according to one\x27s life circumstances.\",\n  \"direction\": \"practical_action\",\n  \"supporting_ids\": [\"C1\", \"C2\"],\n  \"supporting_schools\": [\"Sri Vaisnava Sampradaya\", \"Advaita Vedanta\"],\n  \"confidence_score\": 0.8,\n  \"note\": \"Strong consensus across schools on dharma as duty and cosmic law.\"\n\x7d"

def instructionText : String :=
  "Instruction: You must respond with ONLY valid JSON. No other text. Produce JSON with these exact keys: summary (2-3 sentence synthesis to answer the user question), direction (practical_action|renunciation|devotional|mixed), supporting_ids (array of excerpt IDs used), supporting_schools (array of schools), confidence_score (0.0-1.0), note (short justification). Example format:\n\x7b\"summary\": \"Your synthesis here\", \"direction\": \"mixed\", \"supporting_ids\": [\"C1\"], \"supporting_schools\": [\"School Name\"], \"confidence_score\": 0.8, \"note\": \"Justification\"\x7d"

def excerptLine (tlen : ℕ) (e : Excerpt) : String :=
  e.id ++ " | " ++ e.school ++ " | \"" ++ pyTake e.text tlen ++ "...\"\n"

def excerptBundle (query : String) (es : List Excerpt) (tlen : ℕ) : String :=
  "User question: \"" ++ query ++ "\"\nEXCERPTS:\n"
    ++ String.join (es.map (excerptLine tlen))

def fullPrompt (query : String) (es : List Excerpt) (tlen : ℕ) : String :=
  fewShotExample ++ "\n\n" ++ excerptBundle query es tlen ++ "\n"
    ++ instructionText

/-- Lines 1508–1516: if the estimated token count (`words × 1.3`) of the
prompt exceeds 2800, the excerpt list actually sent is truncated to the
first 6. -/
def sentExcerpts (query : String) (selected : List Excerpt) : List Excerpt :=
  if (2800 : ℚ) < ((pyWords (fullPrompt query selected 200)).length : ℚ) * (13/10)
  then selected.take 6 else selected

/-- The deterministic fallback built when both JSON parses fail
(lines 1590–1600). -/
def fallbackResult (query : String) (sent : List Excerpt) (raw : String) :
    SynthesisResult :=
  ⟨"Based on " ++ toString sent.length
      ++ " commentary excerpts, this verse addresses the question about "
      ++ pyLower query ++ ".",
   "mixed",
   (sent.take 3).map (fun e => e.id),
   dedupList ((sent.take 3).map (fun e => e.school)),
   6/10,
   "Fallback response - model output was not valid JSON. Raw: "
      ++ pyTake raw 100 ++ "..."⟩

/-- Post-validation of a successfully parsed response (lines 1602–1649):
force unknown directions to "mixed", filter cited ids to the offered set,
recompute the school list from the surviving ids, coerce-and-clamp the
reported confidence, default missing summary/note, then overwrite the
confidence with the hybrid confidence. -/
def validatedResult (cd : List CommentaryData) (sent : List Excerpt)
    (r : ParsedResult) : SynthesisResult :=
  let provided_ids := sent.map (fun e => e.id)
  let direction := match r.direction with
    | some d => if d ∈ allowedDirections then d else "mixed"
    | none => "mixed"
  let ids := match r.supporting_ids with
    | some l => l.filter (fun i => i ∈ provided_ids)
    | none => []
  let schools := match r.supporting_schools with
    | some _ =>
      dedupList ((sent.filter (fun e => e.id ∈ ids)).map (fun e => e.school))
    | none => []
  let mc := coerceClamp r.confidence_score
  let summary := r.summary.getD "INSUFFICIENT_GROUNDED_EVIDENCE"
  let note := r.note.getD "N/A"
  let supporting := sent.filter (fun e => e.id ∈ ids)
  match compute_hybrid_confidence supporting (totalSchools cd)
      supporting.length sent.length (some mc) with
  | some hc => ⟨summary, direction, ids, schools, hc, note⟩
  | none => insufficientResult "Error during processing: division by zero"

def query_groq_api_aggregate (cd : List CommentaryData) (query api_key : String)
    (modelOk : Bool) (simF : Option (String → ℚ)) (outcome : ServiceOutcome) :
    SynthesisResult :=
  if api_key = "" ∨ cd = [] then
    insufficientResult "No commentaries provided or API key missing."
  else if modelOk = false then
    insufficientResult "Failed to load embedding model for excerpt selection."
  else
    let selected := select_top_excerpts cd 16 6 modelOk simF
    if selected = [] then
      insufficientResult ("No relevant excerpts found after selection from "
        ++ toString cd.length ++ " commentaries.")
    else
      let sent := sentExcerpts query selected
      match outcome with
      | .httpError code => insufficientResult (apiErrorNote code)
      | .exnMsg m => insufficientResult ("Error during processing: " ++ m)
      | .ok (.parsed r) => validatedResult cd sent r
      | .ok (.recovered r) => validatedResult cd sent r
      | .ok (.unparseable raw) => fallbackResult query sent raw

/-- The ids of the excerpts actually offered to the reasoning service for a
call of `query_groq_api_aggregate` (empty on every short-circuit path). -/
def sentIdsOf (cd : List CommentaryData) (query api_key : String)
    (modelOk : Bool) (simF : Option (String → ℚ)) : List String :=
  if api_key = "" ∨ cd = [] then []
  else if modelOk = false then []
  else
    let selected := select_top_excerpts cd 16 6 modelOk simF
    if selected = [] then []
    else (sentExcerpts query selected).map (fun e => e.id)

/-- C5: after the service-reported confidence has been coerced and clamped
(`coerceClamp`), every confidence value the estimator produces lies in
[0, 1], and it is exactly 0 whenever the supporting-excerpt list is
empty. -/
theorem hybrid_confidence_bounds (exs : List Excerpt) (ts sc N : ℕ)
    (raw : Option ℚ) (c : ℚ)
    (h : compute_hybrid_confidence exs ts sc N (some (coerceClamp raw)) = some c) :
    0 ≤ c ∧ c ≤ 1 ∧ (exs = [] → c = 0) := by
  have hcc : 0 ≤ coerceClamp raw := by
    cases raw with
    | none => simp [coerceClamp]
    | some v => exact le_max_left 0 (min 1 v)
  unfold compute_hybrid_confidence at h
  by_cases hex : exs = []
  · rw [if_pos hex, Option.some.injEq] at h
    exact ⟨h ▸ le_refl 0, h ▸ (by norm_num), fun _ => h.symm⟩
  · rw [if_neg hex] at h
    by_cases hz : min ts 4 = 0 ∨ N = 0
    · rw [if_pos hz] at h
      exact absurd h (by simp)
    · rw [if_neg hz, Option.some.injEq] at h
      have hcov : (0:ℚ) ≤ ((dedupList (exs.map (fun e => e.school))).length : ℚ)
          / ((min ts 4 : ℕ) : ℚ) := by positivity
      have hss : (0:ℚ) ≤ (sc : ℚ) / (N : ℚ) := by positivity
      have hx : (0:ℚ) ≤ (5/10) * coerceClamp raw
          + (5/10) * ((2/10) * (((dedupList (exs.map (fun e => e.school))).length : ℚ)
            / ((min ts 4 : ℕ) : ℚ)) + (1/10) * ((sc : ℚ) / (N : ℚ))) := by
        have : (0:ℚ) ≤ (2/10) * (((dedupList (exs.map (fun e => e.school))).length : ℚ)
            / ((min ts 4 : ℕ) : ℚ)) + (1/10) * ((sc : ℚ) / (N : ℚ)) := by
          have h2 := mul_nonneg (by norm_num : (0:ℚ) ≤ 2/10) hcov
          have h3 := mul_nonneg (by norm_num : (0:ℚ) ≤ 1/10) hss
          linarith
        have h1 := mul_nonneg (by norm_num : (0:ℚ) ≤ 5/10) hcc
        have h4 := mul_nonneg (by norm_num : (0:ℚ) ≤ 5/10) this
        linarith
      refine ⟨?_, ?_, fun habs => absurd habs hex⟩
      · rw [← h]
        exact le_min hx (by norm_num)
      · rw [← h]
        exact min_le_right _ 1

/-- Witness for the C5 theorem: one cited excerpt, one school, reported
confidence 3/2 clamped to 1, hybrid value 13/20. -/
theorem hybrid_confidence_bounds_witness :
    0 ≤ (13/20 : ℚ) ∧ (13/20 : ℚ) ≤ 1 ∧
      ([(⟨"C1", "S", "t", 0⟩ : Excerpt)] = [] → (13/20 : ℚ) = 0) :=
  hybrid_confidence_bounds [⟨"C1", "S", "t", 0⟩] 1 1 1 (some (3/2)) (13/20)
    (by norm_num [compute_hybrid_confidence, coerceClamp, dedupList, insertNew])

/-- C10: `compute_hybrid_confidence` divides by `min(total_schools, 4)`
(and by `N`) without a guard — with a non-empty supporting list and
`total_schools = 0` it raises (modelled as `none`); the precondition
`total_schools ≥ 1` holds whenever the commentary pool is non-empty, since
`total_schools` is its distinct-school count, and then (with `N ≥ 1`) the
division branch is defined; at the single call site the arguments have
exactly these shapes, so the division-by-zero branch is unreachable. -/
theorem hybrid_confidence_guard (e : Excerpt) (es : List Excerpt)
    (ts sc N : ℕ) (mc : Option ℚ) :
    (ts = 0 → compute_hybrid_confidence (e :: es) ts sc N mc = none) ∧
    (∀ cd : List CommentaryData, cd ≠ [] → 1 ≤ totalSchools cd) ∧
    (1 ≤ ts → 1 ≤ N →
      (compute_hybrid_confidence (e :: es) ts sc N mc).isSome = true) ∧
    (∀ (cd : List CommentaryData) (sent : List Excerpt) (ids : List String)
        (mc' : Option ℚ), cd ≠ [] → sent ≠ [] →
      (compute_hybrid_confidence (sent.filter (fun x => x.id ∈ ids))
        (totalSchools cd) (sent.filter (fun x => x.id ∈ ids)).length
        sent.length mc').isSome = true) := by
  have hts : ∀ cd : List CommentaryData, cd ≠ [] → 1 ≤ totalSchools cd := by
    intro cd hcd
    obtain ⟨c, rest, rfl⟩ := List.exists_cons_of_ne_nil hcd
    have hne : dedupList (c.school :: rest.map (fun x => x.school)) ≠ [] :=
      dedupList_ne_nil c.school _
    have : totalSchools (c :: rest)
        = (dedupList (c.school :: rest.map (fun x => x.school))).length := by
      simp [totalSchools]
    rw [this]
    exact Nat.one_le_iff_ne_zero.mpr
      (fun hz => hne (List.length_eq_zero.mp hz))
  have hsome : ∀ (l : List Excerpt) (ts' sc' N' : ℕ) (mc' : Option ℚ),
      1 ≤ ts' → 1 ≤ N' →
      (compute_hybrid_confidence l ts' sc' N' mc').isSome = true := by
    intro l ts' sc' N' mc' h1 h2
    unfold compute_hybrid_confidence
    by_cases hl : l = []
    · simp [hl]
    · have hz : ¬ (min ts' 4 = 0 ∨ N' = 0) := by omega
      rw [if_neg hl, if_neg hz]
      simp
  refine ⟨?_, hts, hsome (e :: es) ts sc N mc, ?_⟩
  · intro h0
    subst h0
    unfold compute_hybrid_confidence
    simp
  · intro cd sent ids mc' hcd hsent
    have h1 := hts cd hcd
    have h2 : 1 ≤ sent.length := by
      cases sent with
      | nil => exact absurd rfl hsent
      | cons a l => simp
    exact hsome _ _ _ _ mc' h1 h2

/-- Witness for the C10 theorem at concrete inputs: the unguarded division
is hit at `total_schools = 0`, and defined at `total_schools = 2`. -/
theorem hybrid_confidence_guard_witness :
    compute_hybrid_confidence [⟨"C9", "W", "t", 0⟩] 0 1 1 (some (1/2)) = none ∧
    1 ≤ totalSchools [⟨"C9", "W", "w"⟩] ∧
    (compute_hybrid_confidence [⟨"C9", "W", "t", 0⟩] 2 1 1 (some (1/2))).isSome
      = true :=
  ⟨(hybrid_confidence_guard ⟨"C9", "W", "t", 0⟩ [] 0 1 1 (some (1/2))).1 rfl,
   (hybrid_confidence_guard ⟨"C9", "W", "t", 0⟩ [] 0 1 1 (some (1/2))).2.1
     [⟨"C9", "W", "w"⟩] (by simp),
   (hybrid_confidence_guard ⟨"C9", "W", "t", 0⟩ [] 2 1 1 (some (1/2))).2.2.1
     (by norm_num) (by norm_num)⟩

theorem validatedResult_ids_subset (cd : List CommentaryData)
    (sent : List Excerpt) (r : ParsedResult) :
    (validatedResult cd sent r).supporting_ids ⊆ sent.map (fun e => e.id) := by
  unfold validatedResult
  cases hs : r.supporting_ids with
  | none =>
    simp only [hs]
    split
    · intro i hi
      simp at hi
    · intro i hi
      simp [insufficientResult] at hi
  | some l =>
    simp only [hs]
    split
    · intro i hi
      simp only [List.mem_filter, decide_eq_true_eq] at hi
      exact hi.2
    · intro i hi
      simp [insufficientResult] at hi

theorem fallbackResult_ids_subset (query : String) (sent : List Excerpt)
    (raw : String) :
    (fallbackResult query sent raw).supporting_ids ⊆ sent.map (fun e => e.id) := by
  unfold fallbackResult
  intro i hi
  simp only [List.mem_map] at hi ⊢
  obtain ⟨e, he, rfl⟩ := hi
  exact ⟨e, List.take_subset 3 sent he, rfl⟩

/-- C1: on every return path of the synthesis step — short-circuits, HTTP
error, exception, direct parse, brace-extraction recovery, and the
synthesized parse-failure fallback — every id in the returned
`supporting_ids` belongs to the excerpt ids actually selected and sent for
that call. -/
theorem synthesis_citations_subset (cd : List CommentaryData)
    (query api_key : String) (modelOk : Bool) (simF : Option (String → ℚ))
    (outcome : ServiceOutcome) :
    (query_groq_api_aggregate cd query api_key modelOk simF outcome).supporting_ids
      ⊆ sentIdsOf cd query api_key modelOk simF := by
  unfold query_groq_api_aggregate sentIdsOf
  by_cases h1 : api_key = "" ∨ cd = []
  · simp [h1, insufficientResult]
  · rw [if_neg h1, if_neg h1]
    by_cases h2 : modelOk = false
    · simp [h2, insufficientResult]
    · rw [if_neg h2, if_neg h2]
      by_cases h3 : select_top_excerpts cd 16 6 modelOk simF = []
      · simp [h3, insufficientResult]
      · rw [if_neg h3, if_neg h3]
        cases outcome with
        | httpError code => simp [insufficientResult]
        | exnMsg m => simp [insufficientResult]
        | ok parse =>
          cases parse with
          | parsed r => exact validatedResult_ids_subset cd _ r
          | recovered r => exact validatedResult_ids_subset cd _ r
          | unparseable raw => exact fallbackResult_ids_subset query _ raw

/-- Witness for the C1 theorem at a concrete recovered-parse call whose
response cites one offered id and one hallucinated id. -/
theorem synthesis_citations_subset_witness :
    (query_groq_api_aggregate [⟨"C1", "Advaita", "Dharma is duty"⟩] "q" "k"
        true (some (fun _ => (1/2 : ℚ)))
        (.ok (.recovered ⟨some "s", some "jnana", some ["C7", "C1"], some [],
          some (2/5), some "n"⟩))).supporting_ids
      ⊆ sentIdsOf [⟨"C1", "Advaita", "Dharma is duty"⟩] "q" "k" true
          (some (fun _ => (1/2 : ℚ))) :=
  synthesis_citations_subset [⟨"C1", "Advaita", "Dharma is duty"⟩] "q" "k"
    true (some (fun _ => (1/2 : ℚ)))
    (.ok (.recovered ⟨some "s", some "jnana", some ["C7", "C1"], some [],
      some (2/5), some "n"⟩))

/-- C2: with an empty commentary list, an empty/missing API key, or empty
excerpt selection, the synthesis step returns the fixed
insufficient-evidence sentinel (summary, direction, empty citation lists,
confidence 0.0) and the result does not depend on the reasoning-service
outcome — the service is never consulted. -/
theorem synthesis_short_circuit (cd : List CommentaryData)
    (query api_key : String) (modelOk : Bool) (simF : Option (String → ℚ))
    (outcome outcome' : ServiceOutcome)
    (h : cd = [] ∨ api_key = "" ∨ select_top_excerpts cd 16 6 modelOk simF = []) :
    (query_groq_api_aggregate cd query api_key modelOk simF outcome).summary
        = "INSUFFICIENT_GROUNDED_EVIDENCE" ∧
    (query_groq_api_aggregate cd query api_key modelOk simF outcome).direction
        = "insufficient_evidence" ∧
    (query_groq_api_aggregate cd query api_key modelOk simF outcome).supporting_ids
        = [] ∧
    (query_groq_api_aggregate cd query api_key modelOk simF outcome).supporting_schools
        = [] ∧
    (query_groq_api_aggregate cd query api_key modelOk simF outcome).confidence_score
        = 0 ∧
    query_groq_api_aggregate cd query api_key modelOk simF outcome
      = query_groq_api_aggregate cd query api_key modelOk simF outcome' := by
  unfold query_groq_api_aggregate
  by_cases h1 : api_key = "" ∨ cd = []
  · simp [h1, insufficientResult]
  · rw [if_neg h1, if_neg h1]
    by_cases h2 : modelOk = false
    · simp [h2, insufficientResult]
    · rw [if_neg h2, if_neg h2]
      have h3 : select_top_excerpts cd 16 6 modelOk simF = [] := by
        rcases h with h | h | h
        · exact absurd (Or.inr h) h1
        · exact absurd (Or.inl h) h1
        · exact h
      simp [h3, insufficientResult]

/-- Witness for the C2 theorem: empty commentary list, two different
service outcomes. -/
theorem synthesis_short_circuit_witness :
    (query_groq_api_aggregate [] "q" "k" true none (.httpError 500)).summary
        = "INSUFFICIENT_GROUNDED_EVIDENCE" ∧
    (query_groq_api_aggregate [] "q" "k" true none (.httpError 500)).direction
        = "insufficient_evidence" ∧
    (query_groq_api_aggregate [] "q" "k" true none (.httpError 500)).supporting_ids
        = [] ∧
    (query_groq_api_aggregate [] "q" "k" true none (.httpError 500)).supporting_schools
        = [] ∧
    (query_groq_api_aggregate [] "q" "k" true none (.httpError 500)).confidence_score
        = 0 ∧
    query_groq_api_aggregate [] "q" "k" true none (.httpError 500)
      = query_groq_api_aggregate [] "q" "k" true none (.exnMsg "boom") :=
  synthesis_short_circuit [] "q" "k" true none (.httpError 500) (.exnMsg "boom")
    (Or.inl rfl)

theorem validatedResult_schools_eq (cd : List CommentaryData)
    (sent : List Excerpt) (p : ParsedResult) (l : List String)
    (hs : p.supporting_schools = some l) :
    (validatedResult cd sent p).supporting_schools
      = dedupList ((sent.filter
          (fun e => e.id ∈ (validatedResult cd sent p).supporting_ids)).map
          (fun e => e.school)) := by
  unfold validatedResult
  simp only [hs]
  split
  · rfl
  · have hfil : sent.filter
        (fun e => e.id ∈ (insufficientResult
          "Error during processing: division by zero").supporting_ids) = [] := by
      simp [insufficientResult]
    rw [hfil]
    simp [insufficientResult, dedupList]

theorem mem_queryResult_schools_unfold (sent : List Excerpt)
    (ids : List String) (s : String) :
    s ∈ dedupList ((sent.filter (fun e => e.id ∈ ids)).map (fun e => e.school))
      ↔ ∃ e ∈ sent, e.id ∈ ids ∧ e.school = s := by
  rw [mem_dedupList]
  constructor
  · intro hm
    obtain ⟨e, he, rfl⟩ := List.mem_map.mp hm
    obtain ⟨he1, he2⟩ := List.mem_filter.mp he
    exact ⟨e, he1, by simpa using he2, rfl⟩
  · rintro ⟨e, he, hid, rfl⟩
    exact List.mem_map.mpr ⟨e, List.mem_filter.mpr ⟨he, by simpa using hid⟩, rfl⟩

/-- C6 counterexample: a successfully parsed response whose
`supporting_schools` field is missing (or not a list) ends with an EMPTY
final school list even though a cited id survived the filter — the schools
are only recomputed from the surviving ids inside the `else` branch, so
"the school of a surviving cited id always appears" is false. -/
theorem synthesis_schools_dropped_cx :
    "Advaita" ∉ (query_groq_api_aggregate [⟨"C1", "Advaita", "Dharma is duty"⟩]
        "q" "k" true (some (fun _ => (1/2 : ℚ)))
        (.ok (.parsed ⟨some "s", some "mixed", some ["C1"], none, some (1/2),
          some "n"⟩))).supporting_schools ∧
    ∃ e ∈ sentExcerpts "q" (select_top_excerpts
        [⟨"C1", "Advaita", "Dharma is duty"⟩] 16 6 true
        (some (fun _ => (1/2 : ℚ)))),
      e.id ∈ (query_groq_api_aggregate [⟨"C1", "Advaita", "Dharma is duty"⟩]
        "q" "k" true (some (fun _ => (1/2 : ℚ)))
        (.ok (.parsed ⟨some "s", some "mixed", some ["C1"], none, some (1/2),
          some "n"⟩))).supporting_ids ∧ e.school = "Advaita" := by
  have hsel : select_top_excerpts [⟨"C1", "Advaita", "Dharma is duty"⟩] 16 6
      true (some (fun _ => (1/2 : ℚ)))
      = [⟨"C1", "Advaita", "Dharma is duty", 1/2⟩] := by
    simp [select_top_excerpts, candidateExcerpts, snippetLoop, addSentences,
      split_text_into_sentences, pySplit, pySplitChars, pyStrip, dropWs,
      pyWords, pyLen, getCount, setCount, alookup, joinWords, fallbackExcerpts,
      List.insertionSort, List.orderedInsert, List.take]
    norm_num
    simp [select_top_excerpts, candidateExcerpts, snippetLoop, addSentences,
      split_text_into_sentences, pySplit, pySplitChars, pyStrip, dropWs,
      pyWords, pyLen, getCount, setCount, alookup, joinWords, fallbackExcerpts,
      List.insertionSort, List.orderedInsert, List.take]
  have hsent : sentExcerpts "q" [⟨"C1", "Advaita", "Dharma is duty", 1/2⟩]
      = [⟨"C1", "Advaita", "Dharma is duty", 1/2⟩] := by
    unfold sentExcerpts
    split <;> rfl
  have hq : query_groq_api_aggregate [⟨"C1", "Advaita", "Dharma is duty"⟩]
      "q" "k" true (some (fun _ => (1/2 : ℚ)))
      (.ok (.parsed ⟨some "s", some "mixed", some ["C1"], none, some (1/2),
        some "n"⟩))
      = ⟨"s", "mixed", ["C1"], [], 2/5, "n"⟩ := by
    unfold query_groq_api_aggregate
    rw [if_neg (by simp), if_neg (by simp)]
    rw [hsel]
    rw [if_neg (by simp), hsent]
    norm_num [validatedResult, compute_hybrid_confidence, totalSchools,
      dedupList, insertNew, coerceClamp, allowedDirections]
  rw [hq, hsel, hsent]
  refine ⟨by simp, ⟨"C1", "Advaita", "Dharma is duty", 1/2⟩, by simp, by simp,
    rfl⟩

/-- C6 (amended): for a successfully parsed (directly or via
brace-extraction) response WHOSE `supporting_schools` FIELD IS PRESENT AS A
LIST, the final school list is recomputed as exactly the set of schools of
the excerpts whose ids survived the citation filter, regardless of the
list the service reported; when the field is missing or not a list the
final school list is empty regardless of the surviving citations. -/
theorem synthesis_schools_recomputed (cd : List CommentaryData)
    (query api_key : String) (modelOk : Bool) (simF : Option (String → ℚ))
    (p : ParsedResult) (l : List String) (parse : RawParse)
    (hkey : api_key ≠ "") (hcd : cd ≠ []) (hmodel : modelOk = true)
    (hsel : select_top_excerpts cd 16 6 modelOk simF ≠ [])
    (hparse : parse = .parsed p ∨ parse = .recovered p)
    (hschools : p.supporting_schools = some l) :
    ∀ res, res = query_groq_api_aggregate cd query api_key modelOk simF
        (.ok parse) →
      (res.supporting_schools
        = dedupList (((sentExcerpts query
            (select_top_excerpts cd 16 6 modelOk simF)).filter
            (fun e => e.id ∈ res.supporting_ids)).map (fun e => e.school)) ∧
       ∀ s, s ∈ res.supporting_schools ↔
         ∃ e ∈ sentExcerpts query (select_top_excerpts cd 16 6 modelOk simF),
           e.id ∈ res.supporting_ids ∧ e.school = s) := by
  subst hmodel
  intro res hres
  have hq : query_groq_api_aggregate cd query api_key true simF (.ok parse)
      = validatedResult cd
          (sentExcerpts query (select_top_excerpts cd 16 6 true simF)) p := by
    unfold query_groq_api_aggregate
    rw [if_neg (fun h => h.elim hkey hcd), if_neg (by simp), if_neg hsel]
    rcases hparse with rfl | rfl <;> rfl
  rw [hq] at hres
  subst hres
  refine ⟨validatedResult_schools_eq cd _ p l hschools, ?_⟩
  intro s
  rw [validatedResult_schools_eq cd _ p l hschools]
  exact mem_queryResult_schools_unfold _ _ s

/-- Witness for the amended C6 theorem: the service reports a school list
["Nyaya"] but the final list is recomputed from the surviving cited id. -/
theorem synthesis_schools_recomputed_witness :
    (query_groq_api_aggregate [⟨"C1", "Advaita", "Dharma is duty"⟩] "q" "k"
        true (some (fun _ => (1/2 : ℚ)))
        (.ok (.parsed ⟨some "s", some "mixed", some ["C1"], some ["Nyaya"],
          some (1/2), some "n"⟩))).supporting_schools
      = dedupList (((sentExcerpts "q" (select_top_excerpts
            [⟨"C1", "Advaita", "Dharma is duty"⟩] 16 6 true
            (some (fun _ => (1/2 : ℚ))))).filter
          (fun e => e.id ∈ (query_groq_api_aggregate
              [⟨"C1", "Advaita", "Dharma is duty"⟩] "q" "k" true
              (some (fun _ => (1/2 : ℚ)))
              (.ok (.parsed ⟨some "s", some "mixed", some ["C1"],
                some ["Nyaya"], some (1/2), some "n"⟩))).supporting_ids)).map
          (fun e => e.school)) :=
  have hsel : select_top_excerpts [⟨"C1", "Advaita", "Dharma is duty"⟩] 16 6
      true (some (fun _ => (1/2 : ℚ)))
      = [⟨"C1", "Advaita", "Dharma is duty", 1/2⟩] := by
    simp [select_top_excerpts, candidateExcerpts, snippetLoop, addSentences,
      split_text_into_sentences, pySplit, pySplitChars, pyStrip, dropWs,
      pyWords, pyLen, getCount, setCount, alookup, joinWords, fallbackExcerpts,
      List.insertionSort, List.orderedInsert, List.take]
    norm_num
    simp [select_top_excerpts, candidateExcerpts, snippetLoop, addSentences,
      split_text_into_sentences, pySplit, pySplitChars, pyStrip, dropWs,
      pyWords, pyLen, getCount, setCount, alookup, joinWords, fallbackExcerpts,
      List.insertionSort, List.orderedInsert, List.take]
  (synthesis_schools_recomputed [⟨"C1", "Advaita", "Dharma is duty"⟩] "q" "k"
    true (some (fun _ => (1/2 : ℚ)))
    ⟨some "s", some "mixed", some ["C1"], some ["Nyaya"], some (1/2), some "n"⟩
    ["Nyaya"]
    (.parsed ⟨some "s", some "mixed", some ["C1"], some ["Nyaya"], some (1/2),
      some "n"⟩)
    (by simp) (by simp) rfl (by rw [hsel]; simp) (Or.inl rfl) rfl
    (query_groq_api_aggregate [⟨"C1", "Advaita", "Dharma is duty"⟩] "q" "k"
      true (some (fun _ => (1/2 : ℚ)))
      (.ok (.parsed ⟨some "s", some "mixed", some ["C1"], some ["Nyaya"],
        some (1/2), some "n"⟩)))
    rfl).1

end GitaReader
